import Mathlib

/-!
Verification development for the PKCS#12 certificate installer
(`pkg/playbook/app/installer/pkcs12.go`).

The Go file implements five operations on a `PKCS12Installer`:
`Check` (renewal decision), `Backup`, `Install`, `AfterInstallActions`
and `InstallValidationActions`, on top of helpers `loadPKCS12`,
`packageAsPKCS12` and `getX509CertChain`.

External libraries (`encoding/pem`, `crypto/x509`,
`software.sslmate.com/src/go-pkcs12` and the repository's private-key
parser) are opaque capabilities here, collected in the `Ext` record.
The generic file utilities (`util.FileExists`, `util.CopyFile`,
`util.WriteFile`, `os.ReadFile`) live outside this source file, so they
are modelled from the spec over an explicit filesystem map.

Go control flow that can dereference a nil pointer is embedded honestly:
an operation's result is an `Outcome`, which is `ok`, `err` (a returned
Go error) or `panic` (a runtime panic, which is not an error return).
-/

namespace VCert

/-- Result of a Go computation: a normal value, a returned error, or a
runtime panic (e.g. a nil-pointer dereference). A panic is not an error
return: control escapes the function without producing its results. -/
inductive Outcome (α : Type) where
  | ok (a : α) : Outcome α
  | err (e : String) : Outcome α
  | panic : Outcome α
deriving DecidableEq, Repr

/-- A decoded PEM block (`pem.Block`): a type tag such as "CERTIFICATE"
and the decoded payload bytes. -/
structure Block where
  type : String
  bytes : List Nat
deriving DecidableEq, Repr

/-- An `x509.Certificate` as far as this installer inspects it: its
expiry timestamp (`NotAfter`), as an integer time value. -/
structure Cert where
  notAfter : Int
deriving DecidableEq, Repr

/-- The external cryptographic capabilities the installer calls:
`pem.Decode`, `x509.ParseCertificate`, the repository's `getPrivateKey`,
`pkcs12.Encode` (with its random source fixed) and `pkcs12.DecodeChain`.
Private keys are identified by an opaque handle (`Nat`). -/
structure Ext where
  pemDecode : String → Option Block
  parseCertificate : List Nat → Except String Cert
  getPrivateKey : String → String → Except String Nat
  pkcs12Encode : Nat → Cert → List Cert → String → Except String (List Nat)
  pkcs12DecodeChain : List Nat → String → Except String (Nat × Cert × List Cert)

/-- `certificate.PEMCollection`: the fields this installer reads —
leaf certificate PEM text, private key PEM text, ordered chain PEM texts. -/
structure PEMCollection where
  certificate : String
  privateKey : String
  chain : List String

/-- The fields of `domain.Installation` that `PKCS12Installer` reads:
target file path, bundle password, and the two hook instruction strings. -/
structure PKCS12Installer where
  file : String
  p12Password : String
  afterAction : String
  installValidation : String

/-- The filesystem as a map from paths to file contents. -/
def FS : Type := String → Option (List Nat)

/-- Pointwise update of a filesystem map. -/
def FS.update (fs : FS) (p : String) (v : Option (List Nat)) : FS :=
  fun q => if q = p then v else fs q

/-- Modelled from the spec: `util.FileExists` (a generic file-existence
utility outside this source file) reports whether a file is present at
the path; over a pure filesystem map it never errors. -/
def fileExists (fs : FS) (path : String) : Bool :=
  (fs path).isSome

/-- Modelled from the spec: `util.CopyFile` (a generic copy utility
outside this source file) copies the source file byte-for-byte to the
destination path, leaving the source untouched; missing source is an I/O
error. -/
def copyFile (fs : FS) (src dst : String) : FS × Option String :=
  match fs src with
  | none => (fs, some ("open " ++ src ++ ": no such file or directory"))
  | some data => (fs.update dst (some data), none)

/-- Modelled from the spec: `util.WriteFile` (a generic write utility
outside this source file) writes the complete byte buffer to the path. -/
def writeFile (fs : FS) (path : String) (content : List Nat) : FS :=
  fs.update path (some content)

/-- Modelled from the spec: `os.ReadFile` returns the file's bytes, or
an I/O error when no file exists at the path. -/
def readFile (fs : FS) (path : String) : Except String (List Nat) :=
  match fs path with
  | none => .error ("open " ++ path ++ ": no such file or directory")
  | some data => .ok data

/-- Modelled from the spec: `domain.ErrNoP12Password`, the
missing-password error value from the domain package. -/
def ErrNoP12Password : String := "PKCS12 file password cannot be empty"

/-- Modelled from the spec: `needRenewal` (defined outside this source
file) compares the leaf certificate's expiry timestamp against
"now + threshold": renewal is needed iff the certificate would already
be expired at that future point. The duration expression is represented
here already parsed, as an integer threshold added to `now`. -/
def needRenewal (cert : Cert) (renewBefore now : Int) : Bool :=
  cert.notAfter ≤ now + renewBefore

/-- `loadPKCS12`: read the file at the path and decode it as a PKCS#12
bundle with the password, yielding the leaf certificate. -/
def loadPKCS12 (env : Ext) (fs : FS) (pkcs12File keyPassword : String) :
    Except String Cert :=
  match readFile fs pkcs12File with
  | .error e => .error e
  | .ok data =>
    match env.pkcs12DecodeChain data keyPassword with
    | .error e => .error e
    | .ok (_, cert, _) => .ok cert

/-- `Check`: the renewal decision. Returns `(needsInstall, error)` as in
Go's `(bool, error)` pair: install if no file exists; otherwise load and
decrypt the bundle (failure is a returned error) and compare the leaf's
expiry against the threshold. -/
def Check (env : Ext) (fs : FS) (r : PKCS12Installer)
    (renewBefore now : Int) : Bool × Option String :=
  if fileExists fs r.file = false then
    (true, none)
  else
    match loadPKCS12 env fs r.file r.p12Password with
    | .error e => (false, some e)
    | .ok cert => (needRenewal cert renewBefore now, none)

/-- `Backup`: if a file exists at the target path, copy it to
`<path>.bak`; otherwise succeed without touching the filesystem.
Returns the resulting filesystem and the Go error value. -/
def Backup (fs : FS) (r : PKCS12Installer) : FS × Option String :=
  if fileExists fs r.file = false then
    (fs, none)
  else
    copyFile fs r.file (r.file ++ ".bak")

/-- `getX509CertChain`: decode and parse each chain entry in order.
The Go code does not nil-check the result of `pem.Decode` before
reading `chainBlock.Bytes`, so an entry with no PEM block is a runtime
panic, not an error return. -/
def getX509CertChain (env : Ext) : List String → Outcome (List Cert)
  | [] => .ok []
  | s :: rest =>
    match env.pemDecode s with
    | none => .panic
    | some chainBlock =>
      match env.parseCertificate chainBlock.bytes with
      | .error _ =>
        .err "failed to parse Chain Certificate bytes to X509.Certificate"
      | .ok chainCert =>
        match getX509CertChain env rest with
        | .ok cs => .ok (chainCert :: cs)
        | .err e => .err e
        | .panic => .panic

/-- `packageAsPKCS12`: validate the material, decode and parse the leaf,
the chain and the private key, and encode the PKCS#12 bundle. -/
def packageAsPKCS12 (env : Ext) (pcc : PEMCollection) (keyPassword : String) :
    Outcome (List Nat) :=
  if pcc.certificate.length = 0 ∨ pcc.privateKey.length = 0 then
    .err "certificate and Private Key are required for PKCS12"
  else
    match env.pemDecode pcc.certificate with
    | none => .err "missing Certificate PEM"
    | some certBlock =>
      if certBlock.type ≠ "CERTIFICATE" then
        .err "missing Certificate PEM"
      else
        match env.parseCertificate certBlock.bytes with
        | .error _ =>
          .err "failed to parse Certificate bytes to X509.Certificate object"
        | .ok cert =>
          match getX509CertChain env pcc.chain with
          | .panic => .panic
          | .err e => .err e
          | .ok chainList =>
            match env.getPrivateKey pcc.privateKey keyPassword with
            | .error e => .err e
            | .ok privateKey =>
              match env.pkcs12Encode privateKey cert chainList keyPassword with
              | .error e => .err ("PKCS12 encode error: " ++ e)
              | .ok bytes => .ok bytes

/-- `Install`: reject an empty bundle password, package the collection,
and write the bundle bytes to the target file. Returns the resulting
filesystem (unchanged unless the write happened) and the outcome. -/
def Install (env : Ext) (fs : FS) (r : PKCS12Installer)
    (pcc : PEMCollection) : FS × Outcome Unit :=
  if r.p12Password = "" then
    (fs, .err ErrNoP12Password)
  else
    match packageAsPKCS12 env pcc r.p12Password with
    | .panic => (fs, .panic)
    | .err e => (fs, .err e)
    | .ok content => (writeFile fs r.file content, .ok ())

/-- `AfterInstallActions`: run the after-install instruction through the
script executor (`util.ExecuteScript`, an opaque capability) and return
its result and error unchanged. -/
def AfterInstallActions (exec : String → String × Option String)
    (r : PKCS12Installer) : String × Option String :=
  exec r.afterAction

/-- `InstallValidationActions`: run the validation instruction through
the script executor; on a non-nil error return the empty string with the
error, otherwise the script's result. -/
def InstallValidationActions (exec : String → String × Option String)
    (r : PKCS12Installer) : String × Option String :=
  match exec r.installValidation with
  | (_, some e) => ("", some e)
  | (result, none) => (result, none)

/-! ### Concrete fixtures

A small concrete instantiation of the external capabilities, used to
evaluate the operations on explicit inputs. The PKCS#12 codec of `env0`
encodes a certificate's expiry with `encInt` and decodes it back with
`decIntOpt`, so the encode/decode pair genuinely round-trips. -/

/-- Injective encoding of an integer as bytes: a sign byte then the
absolute value. -/
def encInt (i : Int) : List Nat :=
  if i < 0 then [0, i.natAbs] else [1, i.natAbs]

/-- Partial inverse of `encInt`. -/
def decIntOpt : List Nat → Option Int
  | [0, n] => some (-(n : Int))
  | [1, n] => some (n : Int)
  | _ => none

/-- Concrete external capabilities: "LEAF" and "CHAIN1" are the only
well-formed PEM texts, "KEY" the only parseable key, and the PKCS#12
codec stores the certificate expiry via `encInt`, decodable only with
password "pw". -/
def env0 : Ext where
  pemDecode := fun s =>
    if s = "LEAF" then some ⟨"CERTIFICATE", [1]⟩
    else if s = "CHAIN1" then some ⟨"CERTIFICATE", [2]⟩
    else none
  parseCertificate := fun b =>
    if b = [1] then .ok ⟨100⟩
    else if b = [2] then .ok ⟨200⟩
    else .error "x509: malformed certificate"
  getPrivateKey := fun s _ =>
    if s = "KEY" then .ok 7 else .error "unable to parse private key"
  pkcs12Encode := fun _ c _ _ => .ok (encInt c.notAfter)
  pkcs12DecodeChain := fun b pw =>
    if pw = "pw" then
      match decIntOpt b with
      | some i => .ok (7, ⟨i⟩, [])
      | none => .error "pkcs12: error reading P12 data"
    else .error "pkcs12: decryption password incorrect"

/-- The empty filesystem. -/
def fs0 : FS := fun _ => none

/-- A filesystem holding one bundle (expiry 100, password "pw") at the
installer's target path. -/
def fs1 : FS :=
  fun p => if p = "/etc/cert.p12" then some [1, 100] else none

/-- An installer aimed at `/etc/cert.p12` with the correct password. -/
def r1 : PKCS12Installer := ⟨"/etc/cert.p12", "pw", "echo after", "echo check"⟩

/-- The same installer with an empty bundle password. -/
def rEmptyPw : PKCS12Installer := ⟨"/etc/cert.p12", "", "", ""⟩

/-- The same installer with a wrong bundle password. -/
def rWrongPw : PKCS12Installer := ⟨"/etc/cert.p12", "bad", "", ""⟩

/-- A well-formed collection: valid leaf, valid key, empty chain. -/
def pcc0 : PEMCollection := ⟨"LEAF", "KEY", []⟩

/-- A collection whose only chain entry has no PEM block. -/
def pccBadChain : PEMCollection := ⟨"LEAF", "KEY", ["no pem here"]⟩

/-- A concrete script executor: both hook instructions fail while still
producing output text. -/
def exec0 : String → String × Option String := fun s =>
  if s = "echo check" then ("validation output", some "exit status 1")
  else if s = "echo after" then ("after output", some "exit status 2")
  else ("", none)

/-! ### Helper lemmas -/

/-- A path never equals itself with the ".bak" suffix appended. -/
theorem ne_append_bak (s : String) : s ≠ s ++ ".bak" := by
  intro h
  have h2 := congrArg String.length h
  rw [String.length_append] at h2
  have h3 : (".bak" : String).length = 4 := by decide
  omega

/-- A string of length zero is the empty string. -/
theorem eq_empty_of_length_zero {s : String} (h : s.length = 0) : s = "" := by
  cases s with
  | mk data =>
    cases data with
    | nil => rfl
    | cons c cs => simp [String.length] at h

/-- `decIntOpt` inverts `encInt`. -/
theorem decIntOpt_encInt (i : Int) : decIntOpt (encInt i) = some i := by
  rcases i with n | n
  · rw [encInt,
      if_neg (show ¬Int.ofNat n < 0 from Int.not_lt.mpr (Int.natCast_nonneg n))]
    simp [decIntOpt]
  · rw [encInt, if_pos (Int.negSucc_lt_zero n)]
    rw [Int.natAbs_negSucc]
    simp only [decIntOpt]
    rw [Int.negSucc_eq]
    push_cast
    ring_nf

/-! ### Claim theorems -/

/-- C1: the claim states that a malformed chain entry (PEM decode yields
no block) makes `packageAsPKCS12` fail by returning an error. On the
code this is false: `getX509CertChain` reads `chainBlock.Bytes` without
a nil check, so the operation ends in a runtime panic, not an error
return. This theorem evaluates the code at such an input: a valid leaf,
a valid key, and one chain entry with no PEM block yield `panic`. -/
theorem packageAsPKCS12_malformed_chain_panic :
    packageAsPKCS12 env0 pccBadChain "pw" = .panic := by
  decide

/-- C3: when the leaf certificate text or the private key text is empty,
`packageAsPKCS12` returns the missing-required-material error, for every
environment — hence before any PEM decode or parse is attempted. -/
theorem packageAsPKCS12_missing_material (env : Ext) (pcc : PEMCollection)
    (pw : String) (h : pcc.certificate = "" ∨ pcc.privateKey = "") :
    packageAsPKCS12 env pcc pw =
      .err "certificate and Private Key are required for PKCS12" := by
  have hc : pcc.certificate.length = 0 ∨ pcc.privateKey.length = 0 := by
    rcases h with h | h
    · exact Or.inl (by rw [h]; rfl)
    · exact Or.inr (by rw [h]; rfl)
  unfold packageAsPKCS12
  rw [if_pos hc]

/-- Witness for C3 at a concrete input with an empty leaf. -/
theorem packageAsPKCS12_missing_material_witness :
    packageAsPKCS12 env0 ⟨"", "KEY", []⟩ "pw" =
      .err "certificate and Private Key are required for PKCS12" :=
  packageAsPKCS12_missing_material env0 ⟨"", "KEY", []⟩ "pw" (Or.inl rfl)

/-- C4: an empty bundle password makes `Install` return the
missing-password error with the filesystem untouched, for every
environment and collection — no packaging is attempted and no write
occurs. -/
theorem Install_empty_password_rejected (env : Ext) (fs : FS)
    (r : PKCS12Installer) (pcc : PEMCollection) (h : r.p12Password = "") :
    Install env fs r pcc = (fs, .err ErrNoP12Password) := by
  unfold Install
  rw [if_pos h]

/-- Witness for C4 at a concrete installer with an empty password. -/
theorem Install_empty_password_rejected_witness :
    Install env0 fs0 rEmptyPw pcc0 = (fs0, .err ErrNoP12Password) :=
  Install_empty_password_rejected env0 fs0 rEmptyPw pcc0 rfl

/-- C8: when no file exists at the source path, `Backup` succeeds and
leaves the filesystem unchanged — in particular no file is created at
the backup location. -/
theorem Backup_missing_source_noop (fs : FS) (r : PKCS12Installer)
    (h : fs r.file = none) :
    Backup fs r = (fs, none) := by
  simp [Backup, fileExists, h]

/-- Witness for C8 on the empty filesystem. -/
theorem Backup_missing_source_noop_witness :
    Backup fs0 r1 = (fs0, none) :=
  Backup_missing_source_noop fs0 r1 rfl

/-- C10: when the script executor returns a non-nil error,
`InstallValidationActions` returns the empty string with that error,
discarding the script's output, while `AfterInstallActions` returns the
script's output alongside its error. -/
theorem InstallValidationActions_discards_output_on_error
    (exec : String → String × Option String) (r : PKCS12Installer) :
    (∀ out e, exec r.installValidation = (out, some e) →
      InstallValidationActions exec r = ("", some e)) ∧
    (∀ out e, exec r.afterAction = (out, some e) →
      AfterInstallActions exec r = (out, some e)) := by
  constructor
  · intro out e h
    simp [InstallValidationActions, h]
  · intro out e h
    simp [AfterInstallActions, h]

/-- Witness for C10 with a concrete failing executor. -/
theorem InstallValidationActions_discards_output_on_error_witness :
    InstallValidationActions exec0 r1 = ("", some "exit status 1") ∧
    AfterInstallActions exec0 r1 = ("after output", some "exit status 2") :=
  ⟨(InstallValidationActions_discards_output_on_error exec0 r1).1
      "validation output" "exit status 1" (by decide),
   (InstallValidationActions_discards_output_on_error exec0 r1).2
      "after output" "exit status 2" (by decide)⟩

/-- C2: the renewal decision. `Check` returns `(true, none)` when no
file exists at the target path; when a decodable bundle exists, it
returns `(false, none)` if the leaf's expiry is strictly after
now + threshold and `(true, none)` if the expiry is at or before
now + threshold. -/
theorem Check_renewal_decision (env : Ext) (fs : FS) (r : PKCS12Installer)
    (renewBefore now : Int) :
    (fs r.file = none → Check env fs r renewBefore now = (true, none)) ∧
    (∀ data k cert ch, fs r.file = some data →
      env.pkcs12DecodeChain data r.p12Password = .ok (k, cert, ch) →
      (now + renewBefore < cert.notAfter →
        Check env fs r renewBefore now = (false, none)) ∧
      (cert.notAfter ≤ now + renewBefore →
        Check env fs r renewBefore now = (true, none))) := by
  constructor
  · intro h
    simp [Check, fileExists, h]
  · intro data k cert ch hfile hdec
    constructor
    · intro hlt
      have hren : needRenewal cert renewBefore now = false := by
        simp only [needRenewal, decide_eq_false_iff_not]
        omega
      simp [Check, fileExists, loadPKCS12, readFile, hfile, hdec, hren]
    · intro hle
      have hren : needRenewal cert renewBefore now = true := by
        simp only [needRenewal, decide_eq_true_eq]
        omega
      simp [Check, fileExists, loadPKCS12, readFile, hfile, hdec, hren]

/-- Witness for C2: missing file, fresh bundle, and expiring bundle. -/
theorem Check_renewal_decision_witness :
    Check env0 fs0 r1 30 0 = (true, none) ∧
    Check env0 fs1 r1 30 0 = (false, none) ∧
    Check env0 fs1 r1 200 0 = (true, none) := by
  refine ⟨?_, ?_, ?_⟩
  · exact (Check_renewal_decision env0 fs0 r1 30 0).1 rfl
  · exact ((Check_renewal_decision env0 fs1 r1 30 0).2
      [1, 100] 7 ⟨100⟩ [] (by decide) rfl).1 (by decide)
  · exact ((Check_renewal_decision env0 fs1 r1 200 0).2
      [1, 100] 7 ⟨100⟩ [] (by decide) rfl).2 (by decide)

/-- C5: when a file exists at the target path but its bytes fail to
decode with the configured password, `Check` surfaces that error
(a non-nil error) and never a verdict with nil error. -/
theorem Check_decode_failure_surfaces_error (env : Ext) (fs : FS)
    (r : PKCS12Installer) (renewBefore now : Int) (data : List Nat)
    (e : String) (hfile : fs r.file = some data)
    (hdec : env.pkcs12DecodeChain data r.p12Password = .error e) :
    Check env fs r renewBefore now = (false, some e) := by
  simp [Check, fileExists, loadPKCS12, readFile, hfile, hdec]

/-- Witness for C5: an existing bundle read with a wrong password. -/
theorem Check_decode_failure_surfaces_error_witness :
    Check env0 fs1 rWrongPw 30 0 =
      (false, some "pkcs12: decryption password incorrect") :=
  Check_decode_failure_surfaces_error env0 fs1 rWrongPw 30 0 [1, 100]
    "pkcs12: decryption password incorrect" (by decide) rfl

/-- C7: when a file exists at the source path, `Backup` succeeds,
writes a byte-identical copy at `<path>.bak`, leaves the source file
unmodified, and changes no other path. -/
theorem Backup_copies_existing_source (fs : FS) (r : PKCS12Installer)
    (data : List Nat) (h : fs r.file = some data) :
    (Backup fs r).2 = none ∧
    (Backup fs r).1 (r.file ++ ".bak") = some data ∧
    (Backup fs r).1 r.file = some data ∧
    ∀ p, p ≠ r.file ++ ".bak" → (Backup fs r).1 p = fs p := by
  have hb : Backup fs r = (fs.update (r.file ++ ".bak") (some data), none) := by
    simp [Backup, fileExists, copyFile, h]
  rw [hb]
  refine ⟨rfl, ?_, ?_, ?_⟩
  · simp [FS.update]
  · show (if r.file = r.file ++ ".bak" then some data else fs r.file) = some data
    rw [if_neg (ne_append_bak r.file)]
    exact h
  · intro p hp
    show (if p = r.file ++ ".bak" then some data else fs p) = fs p
    rw [if_neg hp]

/-- Witness for C7 on a filesystem holding one bundle. -/
theorem Backup_copies_existing_source_witness :
    (Backup fs1 r1).2 = none ∧
    (Backup fs1 r1).1 "/etc/cert.p12.bak" = some [1, 100] ∧
    (Backup fs1 r1).1 "/etc/cert.p12" = some [1, 100] ∧
    (Backup fs1 r1).1 "/other" = fs1 "/other" := by
  obtain ⟨h1, h2, h3, h4⟩ :=
    Backup_copies_existing_source fs1 r1 [1, 100] (by decide)
  exact ⟨h1, h2, h3, h4 "/other" (by decide)⟩

/-- C6: `Install` is all-or-nothing. When packaging returns an error,
`Install` returns that same error with the filesystem untouched; on any
outcome other than success the filesystem is untouched; and a success
writes exactly the full packaged bundle to the target file. -/
theorem Install_all_or_nothing (env : Ext) (fs : FS) (r : PKCS12Installer)
    (pcc : PEMCollection) :
    (∀ e, r.p12Password ≠ "" →
      packageAsPKCS12 env pcc r.p12Password = .err e →
      Install env fs r pcc = (fs, .err e)) ∧
    (∀ fs2 o, Install env fs r pcc = (fs2, o) → o ≠ .ok () → fs2 = fs) ∧
    (∀ fs2, Install env fs r pcc = (fs2, .ok ()) →
      ∃ content, packageAsPKCS12 env pcc r.p12Password = .ok content ∧
        fs2 = writeFile fs r.file content) := by
  unfold Install
  by_cases hpw : r.p12Password = ""
  · rw [if_pos hpw]
    refine ⟨?_, ?_, ?_⟩
    · intro e hne _
      exact absurd hpw hne
    · intro fs2 o h _
      exact (congrArg Prod.fst h).symm
    · intro fs2 h
      exact Outcome.noConfusion (congrArg Prod.snd h)
  · rw [if_neg hpw]
    cases hres : packageAsPKCS12 env pcc r.p12Password with
    | ok content =>
      refine ⟨?_, ?_, ?_⟩
      · intro e _ he
        exact Outcome.noConfusion he
      · intro fs2 o h hne
        exact absurd (congrArg Prod.snd h).symm hne
      · intro fs2 h
        exact ⟨content, rfl, (congrArg Prod.fst h).symm⟩
    | err e2 =>
      refine ⟨?_, ?_, ?_⟩
      · intro e _ he
        injection he with heq
        subst heq
        rfl
      · intro fs2 o h _
        exact (congrArg Prod.fst h).symm
      · intro fs2 h
        exact Outcome.noConfusion (congrArg Prod.snd h)
    | panic =>
      refine ⟨?_, ?_, ?_⟩
      · intro e _ he
        exact Outcome.noConfusion he
      · intro fs2 o h _
        exact (congrArg Prod.fst h).symm
      · intro fs2 h
        exact Outcome.noConfusion (congrArg Prod.snd h)

/-- Witness for C6: a packaging failure (missing material) propagates
out of `Install` with the filesystem untouched. -/
theorem Install_all_or_nothing_witness :
    Install env0 fs0 r1 ⟨"", "", []⟩ =
      (fs0, .err "certificate and Private Key are required for PKCS12") :=
  (Install_all_or_nothing env0 fs0 r1 ⟨"", "", []⟩).1
    "certificate and Private Key are required for PKCS12"
    (by decide) (by decide)

/-- C9: encode-then-decode round-trip. If `packageAsPKCS12` succeeds and
the external PKCS#12 codec preserves the encoded certificate's expiry on
decode, then decoding the produced bytes with the same password recovers
a certificate whose expiry equals that of the leaf parsed from the input
collection. -/
theorem packageAsPKCS12_roundtrip_expiry (env : Ext) (pcc : PEMCollection)
    (pw : String) (bytes : List Nat)
    (hok : packageAsPKCS12 env pcc pw = .ok bytes)
    (hcodec : ∀ k c ch b, env.pkcs12Encode k c ch pw = .ok b →
      ∃ k2 c2 ch2, env.pkcs12DecodeChain b pw = .ok (k2, c2, ch2) ∧
        c2.notAfter = c.notAfter) :
    ∃ blk leaf, env.pemDecode pcc.certificate = some blk ∧
      env.parseCertificate blk.bytes = .ok leaf ∧
      ∃ k2 c2 ch2, env.pkcs12DecodeChain bytes pw = .ok (k2, c2, ch2) ∧
        c2.notAfter = leaf.notAfter := by
  unfold packageAsPKCS12 at hok
  split at hok
  · exact Outcome.noConfusion hok
  · split at hok
    · exact Outcome.noConfusion hok
    · rename_i certBlock hblk
      split at hok
      · exact Outcome.noConfusion hok
      · rename_i htype
        split at hok
        · exact Outcome.noConfusion hok
        · rename_i cert hleaf
          split at hok
          · exact Outcome.noConfusion hok
          · exact Outcome.noConfusion hok
          · rename_i chainList hchain
            split at hok
            · exact Outcome.noConfusion hok
            · rename_i privateKey hkey
              split at hok
              · exact Outcome.noConfusion hok
              · rename_i b henc
                injection hok with hb
                obtain ⟨k2, c2, ch2, hdec2, hexp⟩ :=
                  hcodec privateKey cert chainList b henc
                rw [hb] at hdec2
                exact ⟨certBlock, cert, hblk, hleaf, k2, c2, ch2, hdec2, hexp⟩

/-- Witness for C9: the concrete codec of `env0` round-trips, and the
bundle packaged from `pcc0` decodes back to expiry 100. -/
theorem packageAsPKCS12_roundtrip_expiry_witness :
    ∃ blk leaf, env0.pemDecode pcc0.certificate = some blk ∧
      env0.parseCertificate blk.bytes = .ok leaf ∧
      ∃ k2 c2 ch2, env0.pkcs12DecodeChain [1, 100] "pw" = .ok (k2, c2, ch2) ∧
        c2.notAfter = leaf.notAfter := by
  refine packageAsPKCS12_roundtrip_expiry env0 pcc0 "pw" [1, 100]
    (by decide) ?_
  intro k c ch b h
  have h2 : Except.ok (encInt c.notAfter) = (Except.ok b : Except String (List Nat)) := h
  injection h2 with hb
  refine ⟨7, ⟨c.notAfter⟩, [], ?_, rfl⟩
  rw [← hb]
  simp [env0, decIntOpt_encInt]

end VCert
